import Mathlib

/-!
Verification of the reefline flow service (Python sources under flow/).

The development shallowly embeds the parts of the code the claims touch:

* `flow/integration/minio.py` — artifact object store (object naming,
  read_artifact / write_artifact) modelled as an explicit key-value map
  from object names to `Except`-wrapped byte lists (an `.error e` entry
  models the client raising an exception with message `e` on `get`, e.g.
  a missing object).
* `flow/flow.py` — the capability-gated `read_file` / `write_file` tools,
  the two agent definitions and their handoff wiring, and the turn budget
  passed to the runner.
* `flow/provider.py` — provider configuration (base-url fallback and
  default-model substitution).
* `flow/main.py` — the caller-facing `generate_report` route.
* The generic turn engine (the agents SDK `Runner.run`) is not part of
  this repository's sources; it is modelled from the spec (section 4.3).

Python byte strings are `List Nat` (each entry < 256); `str.encode()` /
`bytes.decode()` are a genuine UTF-8 encoder and decoder, so that the
character-count versus byte-count distinction of the code is preserved.
-/

/-! ## UTF-8: model of Python str.encode() and bytes.decode() -/

/-- UTF-8 encoding of a single character (code point as `Char`),
as performed by Python `str.encode()` for each code point. -/
def utf8EncodeChar (c : Char) : List Nat :=
  let v := c.toNat
  if v < 128 then [v]
  else if v < 2048 then [192 + v / 64, 128 + v % 64]
  else if v < 65536 then [224 + v / 4096, 128 + v / 64 % 64, 128 + v % 64]
  else [240 + v / 262144, 128 + v / 4096 % 64, 128 + v / 64 % 64, 128 + v % 64]

/-- UTF-8 encoding of a whole string: Python `content.encode()`. -/
def utf8Encode (s : String) : List Nat :=
  s.data.flatMap utf8EncodeChar

/-- Continuation byte test (10xxxxxx). -/
def isCont (b : Nat) : Bool := 128 ≤ b && b < 192

/-- Package a decoded code point: succeeds only on a valid scalar value. -/
def utf8MkChar (v : Nat) (rest : List Nat) : Option (Char × List Nat) :=
  if h : v.isValidChar then some (Char.ofNat v, rest) else none

/-- Decode one UTF-8 sequence from the front of a byte list, returning the
character and the remaining bytes; `none` models Python `bytes.decode()`
raising `UnicodeDecodeError`. -/
def utf8DecodeChar : List Nat → Option (Char × List Nat)
  | [] => none
  | b0 :: bs =>
    if b0 < 128 then
      utf8MkChar b0 bs
    else if b0 < 192 then none
    else if b0 < 224 then
      match bs with
      | b1 :: bs1 =>
        if isCont b1 then utf8MkChar ((b0 - 192) * 64 + (b1 - 128)) bs1 else none
      | [] => none
    else if b0 < 240 then
      match bs with
      | b1 :: b2 :: bs2 =>
        if isCont b1 && isCont b2 then
          utf8MkChar ((b0 - 224) * 4096 + (b1 - 128) * 64 + (b2 - 128)) bs2
        else none
      | _ => none
    else if b0 < 248 then
      match bs with
      | b1 :: b2 :: b3 :: bs3 =>
        if isCont b1 && isCont b2 && isCont b3 then
          utf8MkChar ((b0 - 240) * 262144 + (b1 - 128) * 4096 + (b2 - 128) * 64 + (b3 - 128)) bs3
        else none
      | _ => none
    else none

/-- Decode a list of UTF-8 sequences; the fuel argument bounds the number of
characters and is instantiated with the byte count. -/
def utf8DecodeList : Nat → List Nat → Option (List Char)
  | _, [] => some []
  | 0, _ :: _ => none
  | fuel + 1, b :: bs =>
    match utf8DecodeChar (b :: bs) with
    | some (c, rest) => (utf8DecodeList fuel rest).map (fun cs => c :: cs)
    | none => none

/-- Full decoding: Python `bytes.decode()`; `none` models `UnicodeDecodeError`. -/
def utf8Decode (bs : List Nat) : Option String :=
  (utf8DecodeList bs.length bs).map String.mk

/-! ## Artifact object store: model of flow/integration/minio.py

The MinIO client is modelled as a key-value map from object names (within
the fixed default bucket) to the outcome a `get_object` on that name would
have: `.ok bytes` for a stored object, `.error e` for the client raising an
exception with message `e` (a missing object included). -/

/-- Python bytes: a list of byte values. -/
abbrev Bytes := List Nat

/-- The object store, keyed by object name within the default bucket. -/
abbrev ObjStore := String → Except String Bytes

/-- The object name both read_artifact and write_artifact build:
job_id, then "/artifacts/", then the filename. -/
def object_name (job_id filename : String) : String :=
  job_id ++ "/artifacts/" ++ filename

/-- read_artifact: `get_object` on the object name and read the body;
an `.error` is the client raising. -/
def read_artifact (store : ObjStore) (job_id filename : String) : Except String Bytes :=
  store (object_name job_id filename)

/-- write_artifact: `put_object` of the content under the object name.
The content type is carried by the call but does not change what a later
`get` returns, so the store keeps only the bytes. -/
def write_artifact (store : ObjStore) (job_id filename : String) (content : Bytes)
    (content_type : String) : ObjStore :=
  fun k => if k = object_name job_id filename then .ok content else store k

/-! ## Capability-gated tools: model of make_scan_tools in flow/flow.py -/

def ALLOWED_READ : List String :=
  ["grype.json", "dockle.json", "dive.json", "draft.md", "report.md"]

def ALLOWED_WRITE : List String :=
  ["report.md", "draft.md"]

/-- Lexicographic comparison of char lists by code point, the order Python
`sorted` uses on strings. -/
def charListLe : List Char → List Char → Bool
  | [], _ => true
  | _ :: _, [] => false
  | a :: as, b :: bs =>
    if a.toNat < b.toNat then true
    else if b.toNat < a.toNat then false
    else charListLe as bs

/-- String comparison by code point. -/
def strLe (a b : String) : Bool := charListLe a.data b.data

/-- Insert into an ascending list. -/
def insertSorted (x : String) : List String → List String
  | [] => [x]
  | y :: ys => if strLe x y then x :: y :: ys else y :: insertSorted x ys

/-- Python `sorted` on a list of strings (insertion sort, ascending). -/
def sortedStrings : List String → List String
  | [] => []
  | x :: xs => insertSorted x (sortedStrings xs)

/-- The rejection text of the read gate: Python
"Error: '..' not allowed. Choose from: .." with the sorted allowed names. -/
def readRejectMsg (filename : String) : String :=
  "Error: '" ++ filename ++ "' not allowed. Choose from: "
    ++ String.intercalate ", " (sortedStrings ALLOWED_READ)

/-- The rejection text of the write gate. -/
def writeRejectMsg (filename : String) : String :=
  "Error: '" ++ filename ++ "' not allowed. Choose from: "
    ++ String.intercalate ", " (sortedStrings ALLOWED_WRITE)

/-- The read_file tool bound to a job: reject filenames outside ALLOWED_READ,
else read the artifact and decode it; any exception of the client or of the
decode is caught and folded into a "not available" result string.
`decodeErr` gives the message of a `UnicodeDecodeError` on the given bytes. -/
def read_file (decodeErr : Bytes → String) (store : ObjStore)
    (job_id filename : String) : String :=
  if filename ∈ ALLOWED_READ then
    match read_artifact store job_id filename with
    | .ok bs =>
      match utf8Decode bs with
      | some s => s
      | none => filename ++ " not available: " ++ decodeErr bs
    | .error e => filename ++ " not available: " ++ e
  else readRejectMsg filename

/-- The write_file tool bound to a job: reject filenames outside
ALLOWED_WRITE, else put the encoded content and confirm with Python
"OK: .. saved (.. bytes)" quoting len(content); an exception of the put
(modelled by `putFault = some e`) is caught and folded into an error
result string, leaving the store as it was. Returns the result text and
the store after the call. -/
def write_file (putFault : Option String) (store : ObjStore)
    (job_id filename content : String) : String × ObjStore :=
  if filename ∈ ALLOWED_WRITE then
    match putFault with
    | some e => ("Error writing " ++ filename ++ ": " ++ e, store)
    | none =>
      ("OK: " ++ filename ++ " saved (" ++ toString content.length ++ " bytes)",
        write_artifact store job_id filename (utf8Encode content) "text/markdown")
  else (writeRejectMsg filename, store)

/-! ## Agents and handoff wiring: model of run_flow in flow/flow.py

The two Agent objects constructed by run_flow. Instruction text, handoff
descriptions and the model object are opaque prompt/configuration content
(out of engine scope) and are not modelled; what the claims touch is the
name, the tool list and the handoff targets. Both agents are given the
same tool list `scan_tools` — the two closures returned by
make_scan_tools(job_id). -/

/-- The two tool closures of make_scan_tools. -/
inductive Tool where
  | readFileTool
  | writeFileTool
deriving DecidableEq

/-- The resource names the gate inside a tool lets it read. -/
def toolReadAllowed : Tool → List String
  | .readFileTool => ALLOWED_READ
  | .writeFileTool => []

/-- The resource names the gate inside a tool lets it write. -/
def toolWriteAllowed : Tool → List String
  | .readFileTool => []
  | .writeFileTool => ALLOWED_WRITE

/-- make_scan_tools returns [read_file, write_file]. -/
def scan_tools : List Tool := [.readFileTool, .writeFileTool]

/-- An agent: name, tool list, handoff target names. -/
structure Agent where
  name : String
  tools : List Tool
  handoffs : List String
deriving DecidableEq

/-- The SupervisorAgent (the spec's Writer) as run_flow constructs and
wires it: tools := scan_tools, handoffs := [handoff(critique)]. -/
def supervisor : Agent :=
  { name := "SupervisorAgent"
    tools := scan_tools
    handoffs := ["CritiqueAgent"] }

/-- The CritiqueAgent (the spec's Reviewer) as run_flow constructs and
wires it: tools := scan_tools, handoffs := [handoff(supervisor)]. -/
def critique : Agent :=
  { name := "CritiqueAgent"
    tools := scan_tools
    handoffs := ["SupervisorAgent"] }

/-- An agent may write `fn` when some tool of its list has `fn` on its
write allow-list. -/
def agentCanWrite (a : Agent) (fn : String) : Bool :=
  a.tools.any (fun t => (toolWriteAllowed t).contains fn)

/-- An agent may read `fn` when some tool of its list has `fn` on its
read allow-list. -/
def agentCanRead (a : Agent) (fn : String) : Bool :=
  a.tools.any (fun t => (toolReadAllowed t).contains fn)

/-! ## Turn engine

Modelled from the spec: the Turn Engine ("Runner", section 4.3) is the
agents SDK's `Runner.run`, whose code is not among this repository's
sources. Per the spec it is a loop that, each turn, queries the Completion
Provider once and interprets the response: a ToolInvocation keeps the same
agent active, a Handoff to a declared target switches the active agent
(an undeclared or unknown target is the fatal InvalidHandoff), and a
FinalAnswer ends the run; the turn counter increments once per Provider
query regardless of variant, and the loop halts with BudgetExceeded when
maxTurns is reached without a terminal output. -/

/-- The Completion Provider's three response variants (spec section 4.3). -/
inductive ProviderResponse where
  | toolInvocation (toolName args : String)
  | handoffTo (target : String)
  | finalAnswer (text : String)

/-- How a run ends (spec sections 4.3 and 7). -/
inductive RunOutcome where
  | success (agentName text : String)
  | budgetExceeded
  | invalidHandoff (target : String)
deriving DecidableEq

/-- What a run produced: the outcome, the number of Provider queries made,
and the handoff events (from-name, to-name) in order. -/
structure RunTrace where
  outcome : RunOutcome
  queries : Nat
  handoffEvents : List (String × String)
deriving DecidableEq

/-- Modelled from the spec: one engine loop (section 4.3). A provider
behaviour maps (queries made so far, active agent name) to a response; the
fuel is the remaining turn budget. The transcript itself carries no
engine-visible state beyond the active agent, so an arbitrary provider
function over the turn number covers every provider behaviour. -/
def runTurns (registry : String → Option Agent)
    (provider : Nat → String → ProviderResponse) :
    Nat → Agent → Nat → List (String × String) → RunTrace
  | 0, _, used, evs => ⟨.budgetExceeded, used, evs⟩
  | fuel + 1, active, used, evs =>
    match provider used active.name with
    | .finalAnswer t => ⟨.success active.name t, used + 1, evs⟩
    | .toolInvocation _ _ => runTurns registry provider fuel active (used + 1) evs
    | .handoffTo tgt =>
      if tgt ∈ active.handoffs then
        match registry tgt with
        | some next =>
          runTurns registry provider fuel next (used + 1) (evs ++ [(active.name, tgt)])
        | none => ⟨.invalidHandoff tgt, used + 1, evs⟩
      else ⟨.invalidHandoff tgt, used + 1, evs⟩

/-- The agent registry of this workflow: the two agents of run_flow. -/
def flowRegistry : String → Option Agent :=
  fun n =>
    if n = "SupervisorAgent" then some supervisor
    else if n = "CritiqueAgent" then some critique
    else none

/-- run_flow's engine call: Runner.run(supervisor, task, max_turns=100).
The starting agent, the registry and the turn budget are the ones run_flow
passes; the provider behaviour is the run's parameter. -/
def run_flow (provider : Nat → String → ProviderResponse) : RunTrace :=
  runTurns flowRegistry provider 100 supervisor 0 []

/-- A revision is a Reviewer-triggered return to the Writer: a handoff
event from CritiqueAgent to SupervisorAgent (spec glossary). -/
def revisionCount (t : RunTrace) : Nat :=
  (t.handoffEvents.filter
    (fun e => e.1 == "CritiqueAgent" && e.2 == "SupervisorAgent")).length

/-- A provider behaviour that always requests another tool call and never
signals completion. -/
def allToolProvider : Nat → String → ProviderResponse :=
  fun _ _ => .toolInvocation "read_file" "grype.json"

/-- A provider behaviour that hands control back and forth every turn. -/
def pingPongProvider : Nat → String → ProviderResponse :=
  fun _ a =>
    .handoffTo (if a = "SupervisorAgent" then "CritiqueAgent" else "SupervisorAgent")

/-! ## Provider configuration: model of flow/provider.py -/

def PROVIDER_BASE_URLS : List (String × String) :=
  [("openai", "https://api.openai.com/v1"),
   ("anthropic", "https://api.anthropic.com/v1"),
   ("google", "https://generativelanguage.googleapis.com/v1beta/openai"),
   ("openrouter", "https://openrouter.ai/api/v1")]

def DEFAULT_MODELS : List (String × String) :=
  [("openai", "gpt-5-mini"),
   ("anthropic", "claude-sonnet-4-20250514"),
   ("google", "gemini-2.0-flash"),
   ("openrouter", "openai/gpt-4o")]

/-- Python dict .get(key): the value stored under the key, if any. -/
def dictGet (d : List (String × String)) (k : String) : Option String :=
  (d.find? (fun p => p.1 == k)).map Prod.snd

/-- Python `x or y` on an optional string: `y` when `x` is None or empty
(falsy), else the string itself. -/
def pyOrStr (x : Option String) (y : String) : String :=
  match x with
  | none => y
  | some s => if s == "" then y else s

/-- The dataclass ProviderConfig. -/
structure ProviderConfig where
  provider : String
  api_key : String
  model_id : String
deriving DecidableEq

/-- The row get_ai_credentials returns: integration_id, api_key, and the
model_id of the decrypted credentials, which may be absent. -/
structure DbRow where
  integration_id : String
  api_key : String
  model_id : Option String
deriving DecidableEq

/-- ProviderConfig.from_db_row: provider := row integration_id; model_id :=
row model_id `or` DEFAULT_MODELS.get(provider, "gpt-5-mini"). -/
def ProviderConfig.from_db_row (row : DbRow) : ProviderConfig :=
  { provider := row.integration_id
    api_key := row.api_key
    model_id := pyOrStr row.model_id (dictGet DEFAULT_MODELS row.integration_id |>.getD "gpt-5-mini") }

/-- ProviderConfig.base_url: PROVIDER_BASE_URLS.get(provider, the openai
entry). The openai entry is present, so the inner fallback never fires. -/
def ProviderConfig.base_url (cfg : ProviderConfig) : String :=
  (dictGet PROVIDER_BASE_URLS cfg.provider).getD
    ((dictGet PROVIDER_BASE_URLS "openai").getD "")

/-! ## Caller-facing route: model of generate_report in flow/main.py

The route's collaborators are parameters: the get_job result (None or the
row as a key-value dict), the get_ai_credentials result (None or the
three-field row), and the run_flow outcome (the report string, or the
message of the exception it raised). An HTTPException is the error side
of the result. -/

/-- HTTPException(status_code, detail). -/
structure HTTPException where
  status_code : Nat
  detail : String
deriving DecidableEq

/-- The ReportResponse body: job_id, report, bytes := len(report). -/
structure ReportResponse where
  job_id : String
  report : String
  bytes : Nat
deriving DecidableEq

/-- Python truthiness of a dict-or-None value: None and the empty dict are
falsy. get_job returns None or a non-empty row dict. -/
def pyTruthyDict (d : Option (List (String × String))) : Bool :=
  match d with
  | none => false
  | some kvs => !kvs.isEmpty

/-- generate_report: 404 when the job lookup is falsy, 400 when no
connected credentials row exists (get_ai_credentials returns None or a
non-empty three-field dict, modelled by the Option), 500 carrying the
message when run_flow raises, else the (job_id, report, len(report))
response. -/
def generate_report (req_job_id : String)
    (jobRow : Option (List (String × String)))
    (credsRow : Option DbRow)
    (flowResult : Except String String) : Except HTTPException ReportResponse :=
  if !pyTruthyDict jobRow then
    .error ⟨404, "job '" ++ req_job_id ++ "' not found"⟩
  else
    match credsRow with
    | none => .error ⟨400, "no connected AI integration found"⟩
    | some _ =>
      match flowResult with
      | .error e => .error ⟨500, e⟩
      | .ok report => .ok ⟨req_job_id, report, report.length⟩

/-! ## UTF-8 lemmas -/

theorem utf8MkChar_toNat (c : Char) (rest : List Nat) :
    utf8MkChar c.toNat rest = some (c, rest) := by
  have h : c.toNat.isValidChar := c.valid
  simp [utf8MkChar, h, Char.ofNat_toNat]

theorem char_toNat_lt (c : Char) : c.toNat < 1114112 := by
  rcases c.valid with h | h
  · exact Nat.lt_trans h (by decide)
  · exact h.2

theorem utf8DecodeChar_encode (c : Char) (rest : List Nat) :
    utf8DecodeChar (utf8EncodeChar c ++ rest) = some (c, rest) := by
  have hlt := char_toNat_lt c
  unfold utf8EncodeChar
  by_cases h1 : c.toNat < 128
  · simp only [h1, if_true, List.cons_append, List.nil_append, utf8DecodeChar]
    exact utf8MkChar_toNat c rest
  · by_cases h2 : c.toNat < 2048
    · simp only [h1, h2, if_false, if_true, List.cons_append, List.nil_append, utf8DecodeChar]
      have e1 : ¬ (192 + c.toNat / 64 < 128) := by omega
      have e2 : ¬ (192 + c.toNat / 64 < 192) := by omega
      have e3 : 192 + c.toNat / 64 < 224 := by omega
      have e4 : isCont (128 + c.toNat % 64) = true := by simp [isCont]; omega
      simp only [e1, e2, e3, e4, if_false, if_true]
      have ev : (192 + c.toNat / 64 - 192) * 64 + (128 + c.toNat % 64 - 128) = c.toNat := by
        omega
      rw [ev]
      exact utf8MkChar_toNat c rest
    · by_cases h3 : c.toNat < 65536
      · simp only [h1, h2, h3, if_false, if_true, List.cons_append, List.nil_append,
          utf8DecodeChar]
        have e1 : ¬ (224 + c.toNat / 4096 < 128) := by omega
        have e2 : ¬ (224 + c.toNat / 4096 < 192) := by omega
        have e3 : ¬ (224 + c.toNat / 4096 < 224) := by omega
        have e4 : 224 + c.toNat / 4096 < 240 := by omega
        have e5 : isCont (128 + c.toNat / 64 % 64) = true := by simp [isCont]; omega
        have e6 : isCont (128 + c.toNat % 64) = true := by simp [isCont]; omega
        simp only [e1, e2, e3, e4, e5, e6, if_false, if_true, Bool.and_true, Bool.true_and]
        have ev : (224 + c.toNat / 4096 - 224) * 4096 + (128 + c.toNat / 64 % 64 - 128) * 64
            + (128 + c.toNat % 64 - 128) = c.toNat := by omega
        rw [ev]
        exact utf8MkChar_toNat c rest
      · simp only [h1, h2, h3, if_false, List.cons_append, List.nil_append, utf8DecodeChar]
        have e1 : ¬ (240 + c.toNat / 262144 < 128) := by omega
        have e2 : ¬ (240 + c.toNat / 262144 < 192) := by omega
        have e3 : ¬ (240 + c.toNat / 262144 < 224) := by omega
        have e4 : ¬ (240 + c.toNat / 262144 < 240) := by omega
        have e5 : 240 + c.toNat / 262144 < 248 := by omega
        have e6 : isCont (128 + c.toNat / 4096 % 64) = true := by simp [isCont]; omega
        have e7 : isCont (128 + c.toNat / 64 % 64) = true := by simp [isCont]; omega
        have e8 : isCont (128 + c.toNat % 64) = true := by simp [isCont]; omega
        simp only [e1, e2, e3, e4, e5, e6, e7, e8, if_false, if_true, Bool.and_true,
          Bool.true_and]
        have ev : (240 + c.toNat / 262144 - 240) * 262144 + (128 + c.toNat / 4096 % 64 - 128)
            * 4096 + (128 + c.toNat / 64 % 64 - 128) * 64 + (128 + c.toNat % 64 - 128)
            = c.toNat := by omega
        rw [ev]
        exact utf8MkChar_toNat c rest

theorem utf8EncodeChar_ne_nil (c : Char) : utf8EncodeChar c ≠ [] := by
  unfold utf8EncodeChar
  by_cases h1 : c.toNat < 128
  · simp [h1]
  · by_cases h2 : c.toNat < 2048
    · simp [h1, h2]
    · by_cases h3 : c.toNat < 65536 <;> simp [h1, h2, h3]

theorem utf8DecodeList_encode (cs : List Char) :
    ∀ fuel, cs.length ≤ fuel →
      utf8DecodeList fuel (cs.flatMap utf8EncodeChar) = some cs := by
  induction cs with
  | nil => intro fuel _; simp [utf8DecodeList]
  | cons c cs ih =>
    intro fuel hfuel
    cases fuel with
    | zero => simp at hfuel
    | succ f =>
      obtain ⟨b, t, hb⟩ := List.exists_cons_of_ne_nil (utf8EncodeChar_ne_nil c)
      have hrw : (c :: cs).flatMap utf8EncodeChar
          = b :: (t ++ cs.flatMap utf8EncodeChar) := by
        simp [List.flatMap_cons, hb]
      rw [hrw]
      have hdec : utf8DecodeChar (b :: (t ++ cs.flatMap utf8EncodeChar))
          = some (c, cs.flatMap utf8EncodeChar) := by
        have := utf8DecodeChar_encode c (cs.flatMap utf8EncodeChar)
        rwa [hb, List.cons_append] at this
      simp only [utf8DecodeList, hdec]
      rw [ih f (by simpa using hfuel)]
      rfl

theorem length_le_length_flatMap_encode (cs : List Char) :
    cs.length ≤ (cs.flatMap utf8EncodeChar).length := by
  induction cs with
  | nil => simp
  | cons c cs ih =>
    obtain ⟨b, t, hb⟩ := List.exists_cons_of_ne_nil (utf8EncodeChar_ne_nil c)
    rw [List.flatMap_cons, List.length_append, hb]
    simp only [List.length_cons]
    omega

/-- Decoding inverts encoding: the model of the fact that Python
`content.encode().decode()` returns `content`. -/
theorem utf8Decode_encode (s : String) : utf8Decode (utf8Encode s) = some s := by
  unfold utf8Decode utf8Encode
  rw [utf8DecodeList_encode s.data _ (length_le_length_flatMap_encode s.data)]
  rfl

/-- For ASCII-only text the UTF-8 byte count equals the character count. -/
theorem utf8Encode_length_of_ascii (cs : List Char) (h : ∀ c ∈ cs, c.toNat < 128) :
    (cs.flatMap utf8EncodeChar).length = cs.length := by
  induction cs with
  | nil => simp
  | cons c cs ih =>
    have hc : c.toNat < 128 := h c (by simp)
    have henc : utf8EncodeChar c = [c.toNat] := by
      unfold utf8EncodeChar
      simp [hc]
    rw [List.flatMap_cons, List.length_append, henc]
    simp only [List.length_cons, List.length_nil]
    rw [ih (fun x hx => h x (by simp [hx]))]
    omega

/-! ## Object-name and gate lemmas -/

theorem string_data_inj {a b : String} (h : a.data = b.data) : a = b := by
  cases a; cases b; simp_all

/-- Appending a slash-free tail after a slash determines both parts. -/
theorem slash_split (a : List Char) :
    ∀ (b f1 f2 : List Char), '/' ∉ f1 → '/' ∉ f2 →
      a ++ '/' :: f1 = b ++ '/' :: f2 → a = b ∧ f1 = f2 := by
  induction a with
  | nil =>
    intro b f1 f2 hf1 hf2 h
    cases b with
    | nil => simpa using h
    | cons y b' =>
      exfalso
      simp only [List.nil_append, List.cons_append, List.cons.injEq] at h
      obtain ⟨hy, hf⟩ := h
      exact hf1 (by rw [hf]; exact List.mem_append_right _ (List.mem_cons_self _ _))
  | cons x a' ih =>
    intro b f1 f2 hf1 hf2 h
    cases b with
    | nil =>
      exfalso
      simp only [List.nil_append, List.cons_append, List.cons.injEq] at h
      obtain ⟨hx, hf⟩ := h
      exact hf2 (by rw [← hf]; exact List.mem_append_right _ (List.mem_cons_self _ _))
    | cons y b' =>
      simp only [List.cons_append, List.cons.injEq] at h
      obtain ⟨hxy, h'⟩ := h
      obtain ⟨ha, hf⟩ := ih b' f1 f2 hf1 hf2 h'
      exact ⟨by rw [hxy, ha], hf⟩

/-- The object-name map of minio.py is injective on slash-free filenames. -/
theorem object_name_injective {j1 f1 j2 f2 : String}
    (h1 : '/' ∉ f1.data) (h2 : '/' ∉ f2.data)
    (h : object_name j1 f1 = object_name j2 f2) : j1 = j2 ∧ f1 = f2 := by
  have hdata : (j1.data ++ "/artifacts".data) ++ '/' :: f1.data
      = (j2.data ++ "/artifacts".data) ++ '/' :: f2.data := by
    have hsep : "/artifacts/".data = "/artifacts".data ++ ['/'] := by decide
    have e1 := congrArg String.data h
    simp only [object_name, String.data_append, hsep] at e1
    simpa [List.append_assoc] using e1
  obtain ⟨hj, hf⟩ := slash_split _ _ _ _ h1 h2 hdata
  refine ⟨string_data_inj (List.append_cancel_right hj), string_data_inj hf⟩

/-- Every name on the two allow-lists is slash-free. -/
theorem allowed_slash_free (f : String)
    (h : f ∈ ALLOWED_READ ∨ f ∈ ALLOWED_WRITE) : '/' ∉ f.data := by
  rcases h with h | h
  · simp only [ALLOWED_READ, List.mem_cons, List.not_mem_nil, or_false] at h
    rcases h with rfl | rfl | rfl | rfl | rfl <;> decide
  · simp only [ALLOWED_WRITE, List.mem_cons, List.not_mem_nil, or_false] at h
    rcases h with rfl | rfl <;> decide

/-- The write allow-list is contained in the read allow-list. -/
theorem allowed_write_sub_read (f : String) (h : f ∈ ALLOWED_WRITE) :
    f ∈ ALLOWED_READ := by
  simp only [ALLOWED_WRITE, List.mem_cons, List.not_mem_nil, or_false] at h
  rcases h with rfl | rfl <;> decide

/-! ## Claim theorems: capability gate and tools -/

/-- C2: for every filename outside the read allow-list, read_file returns
the rejection string enumerating the allowed names, independently of the
artifact store (the client is never consulted); for every filename outside
the write allow-list, write_file returns the enumerated-choices rejection
and leaves the store untouched, independently of any put fault; both
denials are ordinary result strings, never exceptions. -/
theorem c2_gate_rejection (fr fw : String)
    (hr : fr ∉ ALLOWED_READ) (hw : fw ∉ ALLOWED_WRITE) :
    (∀ decodeErr store job_id, read_file decodeErr store job_id fr
        = "Error: '" ++ fr ++ "' not allowed. Choose from: "
          ++ "dive.json, dockle.json, draft.md, grype.json, report.md")
    ∧ (∀ d1 d2 s1 s2 j1 j2, read_file d1 s1 j1 fr = read_file d2 s2 j2 fr)
    ∧ (∀ putFault store job_id content,
        (write_file putFault store job_id fw content).1
            = "Error: '" ++ fw ++ "' not allowed. Choose from: "
              ++ "draft.md, report.md"
          ∧ (write_file putFault store job_id fw content).2 = store) := by
  have hread : ∀ (decodeErr : Bytes → String) (store : ObjStore) (job_id : String),
      read_file decodeErr store job_id fr = readRejectMsg fr := by
    intro decodeErr store job_id
    simp [read_file, hr]
  have hmsg : String.intercalate ", " (sortedStrings ALLOWED_READ)
      = "dive.json, dockle.json, draft.md, grype.json, report.md" := by decide
  have hmsgw : String.intercalate ", " (sortedStrings ALLOWED_WRITE)
      = "draft.md, report.md" := by decide
  refine ⟨fun d s j => ?_, fun d1 d2 s1 s2 j1 j2 => ?_, fun pf s j c => ?_⟩
  · rw [hread d s j, readRejectMsg, hmsg]
  · rw [hread d1 s1 j1, hread d2 s2 j2]
  · constructor
    · simp only [write_file, hw, if_neg, if_false]
      rw [writeRejectMsg, hmsgw]
    · simp [write_file, hw]

/-- C3: the tool functions are exception-free at their boundary — an
artifact-client fault on read (a missing artifact included), a decode
fault, and a put fault on write are each caught and folded into the
returned result string; in the write-fault case the store is unchanged. -/
theorem c3_fault_folding (decodeErr : Bytes → String) (store : ObjStore)
    (job_id fn : String) :
    (fn ∈ ALLOWED_READ → ∀ e, store (object_name job_id fn) = .error e →
      read_file decodeErr store job_id fn = fn ++ " not available: " ++ e)
    ∧ (fn ∈ ALLOWED_READ → ∀ bs, store (object_name job_id fn) = .ok bs →
        utf8Decode bs = none →
        read_file decodeErr store job_id fn
          = fn ++ " not available: " ++ decodeErr bs)
    ∧ (fn ∈ ALLOWED_WRITE → ∀ e content,
        (write_file (some e) store job_id fn content).1
            = "Error writing " ++ fn ++ ": " ++ e
          ∧ (write_file (some e) store job_id fn content).2 = store) := by
  refine ⟨fun hfn e he => ?_, fun hfn bs hbs hdec => ?_, fun hfn e c => ?_⟩
  · simp [read_file, hfn, read_artifact, he]
  · simp [read_file, hfn, read_artifact, hbs, hdec]
  · simp [write_file, hfn]

/-- C7 counterexample: write_file reports len(content) — the character
count — while the stored bytes are the UTF-8 encoding; on the one-character
content "é" the confirmation says 1 byte but 2 bytes are stored, so the
reported count does not equal the stored byte length. -/
theorem c7_counterexample :
    (write_file none (fun _ => .error "missing") "job1" "draft.md" "é").1
        = "OK: draft.md saved (1 bytes)"
    ∧ (utf8Encode "é").length = 2
    ∧ ¬ (write_file none (fun _ => .error "missing") "job1" "draft.md" "é").1
        = "OK: draft.md saved (" ++ toString (utf8Encode "é").length ++ " bytes)" := by
  refine ⟨by decide, by decide, by decide⟩

/-- C7 amended: a successful write on an allowed filename returns the
confirmation quoting len(content), i.e. the character count; the bytes
stored under the object name are the UTF-8 encoding of the content, whose
length equals the reported count exactly for ASCII-only content. -/
theorem c7_amended_byte_report (job_id fn content : String) (store : ObjStore)
    (h : fn ∈ ALLOWED_WRITE) :
    (write_file none store job_id fn content).1
        = "OK: " ++ fn ++ " saved (" ++ toString content.length ++ " bytes)"
    ∧ (write_file none store job_id fn content).2 (object_name job_id fn)
        = .ok (utf8Encode content)
    ∧ ((∀ c ∈ content.data, c.toNat < 128) →
        (utf8Encode content).length = content.length) := by
  refine ⟨?_, ?_, ?_⟩
  · simp [write_file, h]
  · simp [write_file, h, write_artifact]
  · intro hascii
    have hlen := utf8Encode_length_of_ascii content.data hascii
    rw [utf8Encode, hlen]
    rfl

/-- C8: write-then-read round trip — after a successful write_file of any
content under a filename on the write allow-list, an immediate read_file of
the same filename for the same job returns the content, byte-identical
(the store keeps exactly the encoded bytes and decoding inverts encoding). -/
theorem c8_write_read_roundtrip (job_id fn content : String)
    (decodeErr : Bytes → String) (store : ObjStore) (h : fn ∈ ALLOWED_WRITE) :
    read_file decodeErr (write_file none store job_id fn content).2 job_id fn
      = content := by
  have hread : fn ∈ ALLOWED_READ := allowed_write_sub_read fn h
  simp [read_file, hread, write_file, h, read_artifact, write_artifact,
    utf8Decode_encode]

/-- C9: the object-name map (job_id, filename) to
job_id ++ "/artifacts/" ++ filename is injective for filenames on the
(slash-free) allow-lists, and a write_artifact for one pair leaves the
stored object of every other pair unchanged. -/
theorem c9_object_isolation (j1 j2 f1 f2 : String)
    (h1 : f1 ∈ ALLOWED_READ ∨ f1 ∈ ALLOWED_WRITE)
    (h2 : f2 ∈ ALLOWED_READ ∨ f2 ∈ ALLOWED_WRITE) :
    (object_name j1 f1 = object_name j2 f2 → j1 = j2 ∧ f1 = f2)
    ∧ (∀ (store : ObjStore) (bs : Bytes) (ct : String), (j1, f1) ≠ (j2, f2) →
        write_artifact store j1 f1 bs ct (object_name j2 f2)
          = store (object_name j2 f2)) := by
  have hs1 := allowed_slash_free f1 h1
  have hs2 := allowed_slash_free f2 h2
  constructor
  · exact fun h => object_name_injective hs1 hs2 h
  · intro store bs ct hne
    have hkey : object_name j2 f2 ≠ object_name j1 f1 := by
      intro he
      obtain ⟨hj, hf⟩ := object_name_injective hs2 hs1 he
      exact hne (by rw [hj, hf])
    simp [write_artifact, hkey]

/-! ## Claim theorems: turn engine and workflow -/

theorem runTurns_queries_le (registry : String → Option Agent)
    (provider : Nat → String → ProviderResponse) :
    ∀ fuel active used evs,
      (runTurns registry provider fuel active used evs).queries ≤ used + fuel := by
  intro fuel
  induction fuel with
  | zero => intro active used evs; simp [runTurns]
  | succ f ih =>
    intro active used evs
    simp only [runTurns]
    cases provider used active.name with
    | finalAnswer t =>
      show used + 1 ≤ used + (f + 1)
      omega
    | toolInvocation n g =>
      show (runTurns registry provider f active (used + 1) evs).queries ≤ used + (f + 1)
      have := ih active (used + 1) evs
      omega
    | handoffTo tgt =>
      by_cases hmem : tgt ∈ active.handoffs
      · simp only [hmem, if_true]
        cases registry tgt with
        | some next =>
          show (runTurns registry provider f next (used + 1)
              (evs ++ [(active.name, tgt)])).queries ≤ used + (f + 1)
          have := ih next (used + 1) (evs ++ [(active.name, tgt)])
          omega
        | none =>
          show used + 1 ≤ used + (f + 1)
          omega
      · simp only [hmem, if_false]
        show used + 1 ≤ used + (f + 1)
        omega

theorem runTurns_events_le (registry : String → Option Agent)
    (provider : Nat → String → ProviderResponse) :
    ∀ fuel active used evs,
      (runTurns registry provider fuel active used evs).handoffEvents.length
        ≤ evs.length + fuel := by
  intro fuel
  induction fuel with
  | zero => intro active used evs; simp [runTurns]
  | succ f ih =>
    intro active used evs
    simp only [runTurns]
    cases provider used active.name with
    | finalAnswer t =>
      show evs.length ≤ evs.length + (f + 1)
      omega
    | toolInvocation n g =>
      show (runTurns registry provider f active (used + 1) evs).handoffEvents.length
          ≤ evs.length + (f + 1)
      have := ih active (used + 1) evs
      omega
    | handoffTo tgt =>
      by_cases hmem : tgt ∈ active.handoffs
      · simp only [hmem, if_true]
        cases registry tgt with
        | some next =>
          show (runTurns registry provider f next (used + 1)
              (evs ++ [(active.name, tgt)])).handoffEvents.length
              ≤ evs.length + (f + 1)
          have := ih next (used + 1) (evs ++ [(active.name, tgt)])
          simp only [List.length_append, List.length_cons, List.length_nil] at this
          omega
        | none =>
          show evs.length ≤ evs.length + (f + 1)
          omega
      · simp only [hmem, if_false]
        show evs.length ≤ evs.length + (f + 1)
        omega

/-- When the provider never answers finally and only requests the declared
handoffs, the engine runs the budget down to BudgetExceeded, making exactly
one query per unit of fuel. -/
theorem runTurns_budget (provider : Nat → String → ProviderResponse)
    (h1 : ∀ n a t, provider n a ≠ .finalAnswer t)
    (h2 : ∀ n tgt, provider n "SupervisorAgent" = .handoffTo tgt → tgt = "CritiqueAgent")
    (h3 : ∀ n tgt, provider n "CritiqueAgent" = .handoffTo tgt → tgt = "SupervisorAgent") :
    ∀ fuel active used evs, active = supervisor ∨ active = critique →
      (runTurns flowRegistry provider fuel active used evs).outcome = .budgetExceeded
      ∧ (runTurns flowRegistry provider fuel active used evs).queries = used + fuel := by
  intro fuel
  induction fuel with
  | zero => intro active used evs _; simp [runTurns]
  | succ f ih =>
    intro active used evs ha
    simp only [runTurns]
    cases hp : provider used active.name with
    | finalAnswer t => exact absurd hp (h1 used active.name t)
    | toolInvocation n g =>
      have hrec := ih active (used + 1) evs ha
      refine ⟨hrec.1, ?_⟩
      show (runTurns flowRegistry provider f active (used + 1) evs).queries = used + (f + 1)
      omega
    | handoffTo tgt =>
      rcases ha with rfl | rfl
      · have hname : supervisor.name = "SupervisorAgent" := rfl
        rw [hname] at hp
        have htgt := h2 used tgt hp
        subst htgt
        have hmem : "CritiqueAgent" ∈ supervisor.handoffs := by decide
        have hreg : flowRegistry "CritiqueAgent" = some critique := by decide
        simp only [hmem, if_true, hreg]
        have hrec := ih critique (used + 1) (evs ++ [(supervisor.name, "CritiqueAgent")])
          (Or.inr rfl)
        refine ⟨hrec.1, ?_⟩
        show (runTurns flowRegistry provider f critique (used + 1)
            (evs ++ [(supervisor.name, "CritiqueAgent")])).queries = used + (f + 1)
        omega
      · have hname : critique.name = "CritiqueAgent" := rfl
        rw [hname] at hp
        have htgt := h3 used tgt hp
        subst htgt
        have hmem : "SupervisorAgent" ∈ critique.handoffs := by decide
        have hreg : flowRegistry "SupervisorAgent" = some supervisor := by decide
        simp only [hmem, if_true, hreg]
        have hrec := ih supervisor (used + 1) (evs ++ [(critique.name, "SupervisorAgent")])
          (Or.inl rfl)
        refine ⟨hrec.1, ?_⟩
        show (runTurns flowRegistry provider f supervisor (used + 1)
            (evs ++ [(critique.name, "SupervisorAgent")])).queries = used + (f + 1)
        omega

/-- C1: the run makes at most 100 provider queries for every provider
behaviour, and when the provider never signals completion (and only uses
the declared handoff targets, so the run is not aborted by InvalidHandoff)
the run halts with BudgetExceeded after exactly 100 queries. -/
theorem c1_turn_budget (provider : Nat → String → ProviderResponse) :
    (run_flow provider).queries ≤ 100
    ∧ ((∀ n a t, provider n a ≠ .finalAnswer t) →
       (∀ n tgt, provider n "SupervisorAgent" = .handoffTo tgt →
          tgt = "CritiqueAgent") →
       (∀ n tgt, provider n "CritiqueAgent" = .handoffTo tgt →
          tgt = "SupervisorAgent") →
       (run_flow provider).outcome = .budgetExceeded
       ∧ (run_flow provider).queries = 100) := by
  constructor
  · have := runTurns_queries_le flowRegistry provider 100 supervisor 0 []
    simpa [run_flow] using this
  · intro h1 h2 h3
    have := runTurns_budget provider h1 h2 h3 100 supervisor 0 [] (Or.inl rfl)
    simpa [run_flow] using this

/-- C1 witness: a provider that always requests another tool call — the
budget bound and the BudgetExceeded outcome at a concrete behaviour. -/
theorem c1_turn_budget_witness :
    (run_flow allToolProvider).queries ≤ 100
    ∧ (run_flow allToolProvider).outcome = .budgetExceeded
    ∧ (run_flow allToolProvider).queries = 100 := by
  have h := c1_turn_budget allToolProvider
  have h2 := h.2 (fun n a t => by simp [allToolProvider])
    (fun n tgt hh => by simp [allToolProvider] at hh)
    (fun n tgt hh => by simp [allToolProvider] at hh)
  exact ⟨h.1, h2.1, h2.2⟩

/-- C4 counterexample: a provider that hands control back and forth every
turn drives 50 Reviewer-to-Writer returns through the engine — the
revision count is not capped at 3 by anything in the code. -/
theorem c4_counterexample :
    revisionCount (run_flow pingPongProvider) = 50 ∧ 3 < 50 := by
  exact ⟨by decide, by decide⟩

/-- C4 amended: no hard cap of 3 exists in the code (the cap is carried by
instruction text only); the revision count is bounded only by the turn
budget — at most 100 Reviewer-triggered returns in any run. -/
theorem c4_amended_revision_bound (provider : Nat → String → ProviderResponse) :
    revisionCount (run_flow provider) ≤ 100 := by
  have hev := runTurns_events_le flowRegistry provider 100 supervisor 0 []
  have hfil : revisionCount (run_flow provider)
      ≤ (run_flow provider).handoffEvents.length := by
    exact List.length_filter_le _ _
  simp only [run_flow] at hfil
  simp only [List.length_nil] at hev
  exact le_trans hfil (by simpa [run_flow] using hev)

/-- C6 counterexample: the Writer agent's tool set does permit writing the
final report — write_file with filename report.md passes its gate — so the
write capability is not partitioned between the agents. -/
theorem c6_counterexample : agentCanWrite supervisor "report.md" = true := by
  decide

/-- C6 amended: both agents carry the identical tool list scan_tools, so
each can read all five artifacts and write both draft.md and report.md
(the Writer/Reviewer capability split exists only in instruction text);
each agent lists the other as its sole handoff target. -/
theorem c6_amended_shared_tools :
    supervisor.tools = scan_tools
    ∧ critique.tools = scan_tools
    ∧ (∀ fn, agentCanWrite supervisor fn = agentCanWrite critique fn)
    ∧ (∀ fn, agentCanRead supervisor fn = agentCanRead critique fn)
    ∧ agentCanWrite supervisor "draft.md" = true
    ∧ agentCanWrite supervisor "report.md" = true
    ∧ agentCanRead supervisor "grype.json" = true
    ∧ agentCanRead critique "draft.md" = true
    ∧ supervisor.handoffs = [critique.name]
    ∧ critique.handoffs = [supervisor.name] := by
  refine ⟨rfl, rfl, fun fn => rfl, fun fn => rfl, ?_, ?_, ?_, ?_, rfl, rfl⟩
  all_goals decide

/-! ## Claim theorems: route and provider configuration -/

/-- C5: generate_report 404s exactly when the job lookup returns no record
(get_job returns None or a non-empty row dict, the hypothesis), 400s
exactly when no connected credentials row exists, surfaces a run_flow
exception as a 500 carrying its message, and on success returns
(job_id, report, len(report)) — the bytes field equal to the length of the
returned report text. -/
theorem c5_generate_report (jid : String)
    (jobRow : Option (List (String × String))) (credsRow : Option DbRow)
    (flowResult : Except String String)
    (hjob : ∀ d, jobRow = some d → d ≠ []) :
    ((∃ det, generate_report jid jobRow credsRow flowResult = .error ⟨404, det⟩)
      ↔ jobRow = none)
    ∧ (jobRow ≠ none →
        (generate_report jid jobRow credsRow flowResult
            = .error ⟨400, "no connected AI integration found"⟩
          ↔ credsRow = none))
    ∧ (∀ e, jobRow ≠ none → credsRow ≠ none → flowResult = .error e →
        generate_report jid jobRow credsRow flowResult = .error ⟨500, e⟩)
    ∧ (∀ r, jobRow ≠ none → credsRow ≠ none → flowResult = .ok r →
        generate_report jid jobRow credsRow flowResult = .ok ⟨jid, r, r.length⟩) := by
  cases jobRow with
  | none =>
    refine ⟨?_, by simp, by simp, by simp⟩
    simp [generate_report, pyTruthyDict]
  | some d =>
    have hd : d ≠ [] := hjob d rfl
    have htruthy : pyTruthyDict (some d) = true := by
      simp [pyTruthyDict, List.isEmpty_iff, hd]
    refine ⟨?_, fun _ => ?_, fun e _ hc hf => ?_, fun r _ hc hf => ?_⟩
    · simp only [generate_report, htruthy, Bool.not_true, Bool.false_eq_true, if_false]
      constructor
      · rintro ⟨det, hdet⟩
        exfalso
        cases credsRow with
        | none => simp_all
        | some row =>
          cases flowResult with
          | error e => simp_all
          | ok r => simp_all
      · intro h
        exact absurd h (by simp)
    · simp only [generate_report, htruthy, Bool.not_true, Bool.false_eq_true, if_false]
      cases credsRow with
      | none => simp
      | some row =>
        cases flowResult with
        | error e => simp
        | ok r => simp
    · cases credsRow with
      | none => exact absurd rfl hc
      | some row =>
        simp [generate_report, htruthy, hf]
    · cases credsRow with
      | none => exact absurd rfl hc
      | some row =>
        simp [generate_report, htruthy, hf]

/-- C10: base_url is total and falls back to the OpenAI base URL on every
provider identifier outside the four known ones, and from_db_row
substitutes the provider's default model — "gpt-5-mini" when the provider
is unknown — whenever the stored row carries no model_id. -/
theorem c10_provider_fallback :
    (∀ cfg : ProviderConfig,
      cfg.provider ∉ ["openai", "anthropic", "google", "openrouter"] →
      cfg.base_url = "https://api.openai.com/v1")
    ∧ (∀ row : DbRow, row.model_id = none →
        (ProviderConfig.from_db_row row).model_id
          = (dictGet DEFAULT_MODELS row.integration_id).getD "gpt-5-mini")
    ∧ (∀ row : DbRow, row.model_id = none →
        row.integration_id ∉ ["openai", "anthropic", "google", "openrouter"] →
        (ProviderConfig.from_db_row row).model_id = "gpt-5-mini") := by
  have hmiss : ∀ k : String, k ∉ ["openai", "anthropic", "google", "openrouter"] →
      ∀ d : List (String × String), (∀ p ∈ d, p.1 ∈ ["openai", "anthropic", "google", "openrouter"]) →
      dictGet d k = none := by
    intro k hk d hd
    have hfind : List.find? (fun p => p.1 == k) d = none := by
      rw [List.find?_eq_none]
      intro p hp
      simp only [beq_iff_eq]
      intro he
      exact hk (he ▸ hd p hp)
    simp [dictGet, hfind]
  refine ⟨fun cfg hc => ?_, fun row hm => ?_, fun row hm hu => ?_⟩
  · have h0 : dictGet PROVIDER_BASE_URLS cfg.provider = none := by
      apply hmiss cfg.provider hc
      intro p hp
      simp only [PROVIDER_BASE_URLS, List.mem_cons, List.not_mem_nil, or_false] at hp
      rcases hp with rfl | rfl | rfl | rfl <;> simp
    rw [ProviderConfig.base_url, h0]
    decide
  · rw [ProviderConfig.from_db_row]
    simp [pyOrStr, hm]
  · have h0 : dictGet DEFAULT_MODELS row.integration_id = none := by
      apply hmiss row.integration_id hu
      intro p hp
      simp only [DEFAULT_MODELS, List.mem_cons, List.not_mem_nil, or_false] at hp
      rcases hp with rfl | rfl | rfl | rfl <;> simp
    rw [ProviderConfig.from_db_row]
    simp [pyOrStr, hm, h0]

/-! ## Witnesses at concrete inputs -/

/-- C2 witness: gate rejection at concrete disallowed filenames. -/
theorem c2_gate_rejection_witness :
    read_file (fun _ => "boom") (fun _ => .error "nope") "job1" "secret.txt"
        = "Error: '" ++ "secret.txt" ++ "' not allowed. Choose from: "
          ++ "dive.json, dockle.json, draft.md, grype.json, report.md"
    ∧ (write_file none (fun _ => .error "nope") "job1" "scan.json" "x").1
        = "Error: '" ++ "scan.json" ++ "' not allowed. Choose from: "
          ++ "draft.md, report.md"
    ∧ (write_file none (fun _ => .error "nope") "job1" "scan.json" "x").2
        = (fun _ => .error "nope" : ObjStore) := by
  have h := c2_gate_rejection "secret.txt" "scan.json" (by decide) (by decide)
  exact ⟨h.1 _ _ _, (h.2.2 none _ "job1" "x").1, (h.2.2 none _ "job1" "x").2⟩

/-- C3 witness: fault folding at concrete faults — a raising get, an
undecodable byte, a raising put. -/
theorem c3_fault_folding_witness :
    read_file (fun _ => "bad bytes") (fun _ => .error "NoSuchKey") "job1" "grype.json"
        = "grype.json" ++ " not available: " ++ "NoSuchKey"
    ∧ read_file (fun _ => "bad bytes") (fun _ => .ok [255]) "job1" "grype.json"
        = "grype.json" ++ " not available: " ++ "bad bytes"
    ∧ (write_file (some "timeout") (fun _ => .error "NoSuchKey") "job1" "draft.md" "x").1
        = "Error writing " ++ "draft.md" ++ ": " ++ "timeout"
    ∧ (write_file (some "timeout") (fun _ => .error "NoSuchKey") "job1" "draft.md" "x").2
        = (fun _ => .error "NoSuchKey" : ObjStore) := by
  have ha := c3_fault_folding (fun _ => "bad bytes") (fun _ => .error "NoSuchKey")
    "job1" "grype.json"
  have hb := c3_fault_folding (fun _ => "bad bytes") (fun _ => .ok [255])
    "job1" "grype.json"
  have hc := c3_fault_folding (fun _ => "bad bytes") (fun _ => .error "NoSuchKey")
    "job1" "draft.md"
  refine ⟨ha.1 (by decide) "NoSuchKey" rfl, hb.2.1 (by decide) [255] rfl (by decide),
    (hc.2.2 (by decide) "timeout" "x").1, (hc.2.2 (by decide) "timeout" "x").2⟩

/-- C5 witness: a found job, connected credentials and a clean run give the
ok response with bytes = len(report). -/
theorem c5_generate_report_witness :
    generate_report "job-1" (some [("job_id", "job-1")])
        (some ⟨"openai", "sk", none⟩) (.ok "report text")
      = .ok ⟨"job-1", "report text", 11⟩ := by
  have h := c5_generate_report "job-1" (some [("job_id", "job-1")])
      (some ⟨"openai", "sk", none⟩) (.ok "report text")
      (by intro d hd; cases hd; simp)
  have h2 := h.2.2.2 "report text" (by simp) (by simp) rfl
  rw [show ("report text").length = 11 from rfl] at h2
  exact h2

/-- C7 witness (amended form): a successful ASCII write at concrete input. -/
theorem c7_amended_byte_report_witness :
    (write_file none (fun _ => .error "missing") "job1" "draft.md" "hello").1
        = "OK: " ++ "draft.md" ++ " saved (" ++ toString ("hello").length ++ " bytes)"
    ∧ (write_file none (fun _ => .error "missing") "job1" "draft.md" "hello").2
        (object_name "job1" "draft.md") = .ok (utf8Encode "hello")
    ∧ (utf8Encode "hello").length = ("hello").length := by
  have h := c7_amended_byte_report "job1" "draft.md" "hello"
    (fun _ => .error "missing") (by decide)
  exact ⟨h.1, h.2.1, h.2.2 (by decide)⟩

/-- C8 witness: write-then-read round trip at concrete input. -/
theorem c8_write_read_roundtrip_witness :
    read_file (fun _ => "boom")
      (write_file none (fun _ => .error "missing") "job1" "draft.md" "hello").2
      "job1" "draft.md" = "hello" :=
  c8_write_read_roundtrip "job1" "draft.md" "hello" (fun _ => "boom")
    (fun _ => .error "missing") (by decide)

/-- C9 witness: injectivity and the frame property at concrete pairs. -/
theorem c9_object_isolation_witness :
    (object_name "jobA" "draft.md" = object_name "jobB" "report.md" →
      "jobA" = "jobB" ∧ "draft.md" = "report.md")
    ∧ write_artifact (fun _ => .error "missing") "jobA" "draft.md" [104] "text/markdown"
        (object_name "jobB" "report.md") = .error "missing" := by
  have h := c9_object_isolation "jobA" "jobB" "draft.md" "report.md"
    (Or.inr (by decide)) (Or.inr (by decide))
  exact ⟨h.1, h.2 (fun _ => .error "missing") [104] "text/markdown" (by simp)⟩

/-- C10 witness: an unknown provider at concrete rows. -/
theorem c10_provider_fallback_witness :
    (ProviderConfig.mk "mistral" "sk" "m").base_url = "https://api.openai.com/v1"
    ∧ (ProviderConfig.from_db_row ⟨"anthropic", "sk", none⟩).model_id
        = "claude-sonnet-4-20250514"
    ∧ (ProviderConfig.from_db_row ⟨"mistral", "sk", none⟩).model_id = "gpt-5-mini" := by
  have h := c10_provider_fallback
  refine ⟨h.1 ⟨"mistral", "sk", "m"⟩ (by decide), ?_,
    h.2.2 ⟨"mistral", "sk", none⟩ rfl (by decide)⟩
  have h2 := h.2.1 ⟨"anthropic", "sk", none⟩ rfl
  rw [h2]
  decide
